import Mathlib

/-!
# Verification of the eToro statement-analysis core (src/src/App.tsx)

Shallow embedding of the trade-ledger analytics engine: the Trade
Aggregator (`computeStats`, App.tsx lines 309-438) and the Equity
Reconciler (the inline post-processing in `handleFileUpload`, lines
230-295).  JavaScript numbers are modelled as `ℚ`; the JS value `NaN`
arising from `Number(string)` is modelled as `Option ℚ` with `none` for
NaN.  `Math.max`/`Math.min` over a possibly-empty spread need the
extended values `±Infinity`, modelled by `XReal`.  JS strings are
modelled by `String`, with the splitting operations re-implemented over
`List Char` (`String.split(sep)` for a single-character separator).
JS objects used as string-keyed maps are modelled as association lists
in insertion order (`insertAdd` for the read-modify-write
`m[k] = (m[k] || 0) + v`, `insertPut` for plain assignment
`m[k] = v`), since `Object.keys`/`Object.values` enumerate string keys
in insertion order for the non-index keys that occur here.
`Array.prototype.sort` (stable) is modelled by `List.insertionSort`,
which is likewise stable; a comparator returning `NaN` leaves the
relative order of the two elements unchanged, modelled by making the
boolean order relation hold in both directions.
-/

/-- A raw spreadsheet cell as handed to the core by `sheet_to_json`
(with `defval: ''`): either a string or a number. -/
inductive Cell where
  | str (s : String)
  | num (q : ℚ)
deriving DecidableEq, Repr, Inhabited

/-- JS whitespace characters stripped by `Number(string)` conversion
(the WhiteSpace and LineTerminator productions; the common ones). -/
def isJsWhitespace (c : Char) : Bool :=
  c = ' ' || c = Char.ofNat 9 || c = Char.ofNat 10 || c = Char.ofNat 11 ||
  c = Char.ofNat 12 || c = Char.ofNat 13 || c = Char.ofNat 160

/-- Numeric value of a list of decimal digit characters (most
significant first). -/
def digitsVal (l : List Char) : ℕ :=
  l.foldl (fun n c => 10 * n + (c.toNat - 48)) 0

/-- Parse a non-empty all-digit character list to a natural number. -/
def parseNatChars (l : List Char) : Option ℕ :=
  if l ≠ [] ∧ l.all Char.isDigit then some (digitsVal l) else none

/-- Parse an unsigned decimal literal (digits, optionally a fractional
part after a dot).  Returns `none` for anything else (model of the JS
StrDecimalLiteral grammar restricted to the forms the ledger uses). -/
def parseUnsignedDec (l : List Char) : Option ℚ :=
  let intPart := l.takeWhile Char.isDigit
  let rest := l.drop intPart.length
  match rest with
  | [] => if intPart = [] then none else some (digitsVal intPart)
  | c :: t =>
    if c = Char.ofNat 46 then
      let frac := t.takeWhile Char.isDigit
      if t.drop frac.length = [] then
        if intPart = [] ∧ frac = [] then none
        else some ((digitsVal intPart : ℚ) + (digitsVal frac : ℚ) / 10 ^ frac.length)
      else none
    else none

/-- JS `Number(string)`: trim whitespace; empty after trimming is `0`;
otherwise an optionally signed decimal literal; anything else is NaN
(`none`). -/
def jsStrToNumber (s : String) : Option ℚ :=
  let t := (s.data.dropWhile isJsWhitespace).reverse.dropWhile isJsWhitespace |>.reverse
  match t with
  | [] => some 0
  | c :: r =>
    if c = Char.ofNat 45 then (parseUnsignedDec r).map (fun q => -q)
    else if c = Char.ofNat 43 then parseUnsignedDec r
    else parseUnsignedDec t

/-- JS `Number(cell)`: numbers convert to themselves, strings via
`jsStrToNumber`; `none` models NaN. -/
def jsToNumber : Cell → Option ℚ
  | .num q => some q
  | .str s => jsStrToNumber s

/-- JS truthiness of a cell (`''` and `0` are falsy). -/
def cellTruthy : Cell → Bool
  | .num q => q ≠ 0
  | .str s => s ≠ ""

/-- `String.prototype.split(sep)` for a one-character separator,
working over the character list. -/
def splitChar (c : Char) : List Char → List (List Char)
  | [] => [[]]
  | x :: t =>
    match splitChar c t with
    | [] => [[]]
    | h :: r => if x = c then [] :: h :: r else (x :: h) :: r

/-- Encode a calendar date as a sortable key. -/
def dateKeyOfParts (y m d : ℕ) : ℕ := (y * 100 + m) * 100 + d

/-- Model of `new Date(s).getTime()` for the `YYYY-MM-DD`-shaped keys
produced by the date reformatting: three `-`-separated numeric fields
with month and day in calendar range give a chronologically ordered
key; anything else is an invalid date (`none`, modelling NaN). -/
def jsDateKey (s : String) : Option ℕ :=
  match splitChar (Char.ofNat 45) s.data with
  | [y, m, d] => do
    let yn ← parseNatChars y
    let mn ← parseNatChars m
    let dn ← parseNatChars d
    if 1 ≤ mn ∧ mn ≤ 12 ∧ 1 ≤ dn ∧ dn ≤ 31 then some (dateKeyOfParts yn mn dn) else none
  | _ => none

/-- `parseDate` (App.tsx lines 143-148): split a `DD/MM/YYYY HH:MM:SS`
string on the space, default the time to midnight, and build a
timestamp; a shape mismatch yields an invalid date (`none`). -/
def toInstant (s : String) : Option ℕ :=
  let parts := splitChar ' ' s.data
  let p0 := parts.headD []
  let timePart := match parts.get? 1 with
    | some t => if t = [] then '0' :: '0' :: ':' :: '0' :: '0' :: ':' :: '0' :: '0' :: [] else t
    | none => '0' :: '0' :: ':' :: '0' :: '0' :: ':' :: '0' :: '0' :: []
  match splitChar '/' p0 with
  | [d, m, y] => do
    let dn ← parseNatChars d
    let mn ← parseNatChars m
    let yn ← parseNatChars y
    match splitChar ':' timePart with
    | [h, mi, sec] => do
      let hn ← parseNatChars h
      let min2 ← parseNatChars mi
      let sn ← parseNatChars sec
      if 1 ≤ mn ∧ mn ≤ 12 ∧ 1 ≤ dn ∧ dn ≤ 31 ∧ hn ≤ 23 ∧ min2 ≤ 59 ∧ sn ≤ 59 then
        some (((dateKeyOfParts yn mn dn * 100 + hn) * 100 + min2) * 100 + sn)
      else none
    | _ => none
  | _ => none

/-- `formatDate` (App.tsx lines 133-140): reorder `DD/MM/YYYY[ time]`
to `YYYY-MM-DD`; if the part before the first space does not split on
`/` into exactly three pieces, return the whole raw string unchanged. -/
def formatDate (rawDate : String) : String :=
  let parts := splitChar ' ' rawDate.data
  let dateParts := splitChar '/' (parts.headD [])
  match dateParts with
  | [d, m, y] => String.mk (y ++ '-' :: m ++ '-' :: d)
  | _ => rawDate

/-- The comparator `(a, b) => key a - key b` under JS sort semantics as
a boolean order: when either key is NaN the comparator returns NaN,
which the sort treats as a tie. -/
def nanLeB : Option ℕ → Option ℕ → Bool
  | some x, some y => x ≤ y
  | _, _ => true

/-- Lexicographic code-unit comparison of strings, the order behind the
default `Array.prototype.sort()` on strings and `localeCompare` for the
ASCII keys used here. -/
def charListLe : List Char → List Char → Bool
  | [], _ => true
  | _ :: _, [] => false
  | a :: s, b :: t =>
    if a.toNat < b.toNat then true
    else if b.toNat < a.toNat then false
    else charListLe s t

def strLeB (a b : String) : Bool := charListLe a.data b.data

/-- `m[k] = (m[k] || 0) + v` on a JS object used as a map: update the
existing entry in place, or append a new key at the end. -/
def insertAdd : List (String × ℚ) → String → ℚ → List (String × ℚ)
  | [], k, v => [(k, v)]
  | (k0, v0) :: t, k, v =>
    if k0 = k then (k0, v0 + v) :: t else (k0, v0) :: insertAdd t k v

/-- `m[k] = v` on a JS object used as a map: overwrite the existing
entry in place, or append a new key at the end. -/
def insertPut : List (String × ℚ) → String → ℚ → List (String × ℚ)
  | [], k, v => [(k, v)]
  | (k0, v0) :: t, k, v =>
    if k0 = k then (k0, v) :: t else (k0, v0) :: insertPut t k v

/-- Property lookup `m[k]` on a JS object used as a map (`none` models
`undefined`). -/
def alookup : List (String × ℚ) → String → Option ℚ
  | [], _ => none
  | (k0, v0) :: t, k => if k0 = k then some v0 else alookup t k

/-- An extended number: `Math.max()` of an empty spread is
`-Infinity` and `Math.min()` is `Infinity`, so the max/min statistics
live in `ℚ` extended with both infinities. -/
inductive XReal where
  | negInf
  | fin (q : ℚ)
  | posInf
deriving DecidableEq, Repr, Inhabited

def XReal.max : XReal → XReal → XReal
  | .negInf, y => y
  | x, .negInf => x
  | .posInf, _ => .posInf
  | _, .posInf => .posInf
  | .fin a, .fin b => .fin (if a ≤ b then b else a)

def XReal.min : XReal → XReal → XReal
  | .posInf, y => y
  | x, .posInf => x
  | .negInf, _ => .negInf
  | _, .negInf => .negInf
  | .fin a, .fin b => .fin (if a ≤ b then a else b)

/-- A raw trade row from the Closed Positions sheet, restricted to the
two columns the core reads.  The Close Date cell is modelled by its
string rendering (the code immediately calls `.toString()` on it); a
missing column is the empty string (`defval: ''`). -/
structure TradeRow where
  profit : Cell
  closeDate : String
deriving DecidableEq, Repr, Inhabited

/-- A raw Account Activity row, restricted to the three columns the
core reads (`Date`, `Balance`, `Realized Equity`). -/
structure ActivityRow where
  date : String
  balance : Cell
  realizedEquity : Cell
deriving DecidableEq, Repr, Inhabited

/-- Element of `dailyData` (interface `DailyData`, App.tsx lines 20-26). -/
structure DailyData where
  date : String
  profit : ℚ
  cumulativeProfit : ℚ
  balance : ℚ
  dailyPercentChange : ℚ
deriving DecidableEq, Repr, Inhabited

/-- Element of `monthlyData` (interface `MonthlyData`, lines 28-34). -/
structure MonthlyData where
  month : String
  profit : ℚ
  cumulativeProfit : ℚ
  balance : ℚ
  monthlyPercentChange : ℚ
deriving DecidableEq, Repr, Inhabited

/-- Element of `realizedEquityData` (interface `RealizedEquityData`,
lines 36-39). -/
structure RealizedEquityData where
  date : String
  realizedEquity : ℚ
deriving DecidableEq, Repr, Inhabited

/-- The `Stats` record (lines 41-58).  The code stores
`stdDev = Math.sqrt(variance)`; the square root of a rational is not a
rational, so the record carries the radicand `variance` instead:
`stdDev` is zero/equal across runs exactly when `variance` is. -/
structure Stats where
  totalTrades : ℕ
  profitableTrades : ℕ
  lossTrades : ℕ
  breakEvenTrades : ℕ
  winRate : ℚ
  totalProfit : ℚ
  maxProfit : XReal
  minProfit : XReal
  avgProfit : ℚ
  medianProfit : ℚ
  variance : ℚ
  averageDailyProfit : ℚ
  projectedAnnualIncome : ℚ
  dailyData : List DailyData
  monthlyData : List MonthlyData
  realizedEquityData : List RealizedEquityData
deriving DecidableEq, Repr, Inhabited

/-- The validity filter (lines 311-314):
`trade['Profit(USD)'] !== '' && !isNaN(Number(trade['Profit(USD)']))`. -/
def validP (t : TradeRow) : Bool :=
  t.profit ≠ Cell.str "" && (jsToNumber t.profit).isSome

/-- `Number(trade['Profit(USD)'])` for a row that passed the filter
(`0` stands in for the unreachable NaN case). -/
def profitOf (t : TradeRow) : ℚ := (jsToNumber t.profit).getD 0

/-- The grouping key computed inline in `computeStats` (lines 347-357):
if the Close Date cell is truthy, split its string on the space, split
the first part on `/`; three pieces are reordered to `YYYY-MM-DD`,
otherwise the first part itself is the key; the empty string means "no
key" and the row is skipped by the `if (dateStr)` guard. -/
def tradeDateStr (closeDate : String) : String :=
  if closeDate ≠ "" then
    let parts := splitChar ' ' closeDate.data
    let p0 := parts.headD []
    match splitChar '/' p0 with
    | [d, m, y] => String.mk (y ++ '-' :: m ++ '-' :: d)
    | _ => String.mk p0
  else ""

/-- `dailyProfitMap` (lines 346-361): fold the valid trades in order,
adding each profit under its date key, skipping rows whose key is
empty. -/
def dailyProfitMapOf (valid : List TradeRow) : List (String × ℚ) :=
  valid.foldl
    (fun m t =>
      if tradeDateStr t.closeDate = "" then m
      else insertAdd m (tradeDateStr t.closeDate) (profitOf t))
    []

/-- The comparator of the `dailyData.sort` call (line 380):
`new Date(a.date).getTime() - new Date(b.date).getTime()`. -/
def dailyLeB (a b : DailyData) : Bool := nanLeB (jsDateKey a.date) (jsDateKey b.date)

/-- The mutating `dailyData.forEach` walk (lines 381-388) as explicit
state passing: `cum` is `cumulative` and `prevBal` is
`previousBalance`. -/
def dailyWalk (ib : ℚ) : ℚ → ℚ → List DailyData → List DailyData
  | _, _, [] => []
  | cum, prevBal, d :: t =>
    let cum2 := cum + d.profit
    let bal := ib + cum2
    let pct := if prevBal ≠ 0 then d.profit / prevBal * 100 else 0
    { d with cumulativeProfit := cum2, balance := bal, dailyPercentChange := pct } ::
      dailyWalk ib cum2 bal t

/-- The monthly accumulation loop (lines 403-418). -/
def monthlyWalk (ib : ℚ) : ℚ → ℚ → List (String × ℚ) → List MonthlyData
  | _, _, [] => []
  | cum, prevBal, (mo, p) :: t =>
    let cum2 := cum + p
    let bal := ib + cum2
    let pct := if prevBal ≠ 0 then p / prevBal * 100 else 0
    ⟨mo, p, cum2, bal, pct⟩ :: monthlyWalk ib cum2 bal t

/-- `item.date.slice(0, 7)` (line 393): the `YYYY-MM` month key. -/
def monthKey (s : String) : String := String.mk (s.data.take 7)

/-- The daily bucket records as built (lines 373-379) and sorted
(line 380), before the accumulation walk fills in the running fields. -/
def dailyBucketsSorted (valid : List TradeRow) : List DailyData :=
  List.insertionSort (fun a b => dailyLeB a b = true)
    ((dailyProfitMapOf valid).map (fun kv => DailyData.mk kv.1 kv.2 0 0 0))

/-- The monthly `{month, profit}` pairs grouped from the daily series
(lines 391-401) and sorted by `localeCompare` (line 402). -/
def monthlyBucketsSorted (dailyData : List DailyData) : List (String × ℚ) :=
  List.insertionSort (fun a b : String × ℚ => strLeB a.1 b.1 = true)
    (dailyData.foldl (fun m d => insertAdd m (monthKey d.date) d.profit) [])

/-- `computeStats` (lines 309-438) on the already-filtered valid
trades.  Every statistic and both bucket series are functions of this
valid subset and the initial balance alone. -/
def computeStatsValid (validTrades : List TradeRow) (initialBalance : ℚ) : Stats :=
  let totalTrades := validTrades.length
  let profitArray := validTrades.map profitOf
  let profitableTrades := (profitArray.filter (fun p => 0 < p)).length
  let lossTrades := (profitArray.filter (fun p => p < 0)).length
  let breakEvenTrades := (profitArray.filter (fun p => p = 0)).length
  let winRate := if 0 < totalTrades then (profitableTrades : ℚ) / totalTrades * 100 else 0
  let totalProfit := profitArray.foldl (fun acc v => acc + v) (0 : ℚ)
  let maxProfit := profitArray.foldl (fun acc v => acc.max (XReal.fin v)) XReal.negInf
  let minProfit := profitArray.foldl (fun acc v => acc.min (XReal.fin v)) XReal.posInf
  let avgProfit := if 0 < totalTrades then totalProfit / totalTrades else 0
  let sortedProfit := List.insertionSort (fun a b : ℚ => a ≤ b) profitArray
  let mid := sortedProfit.length / 2
  let medianProfit :=
    if 0 < sortedProfit.length then
      if sortedProfit.length % 2 = 0 then
        (sortedProfit.getD (mid - 1) 0 + sortedProfit.getD mid 0) / 2
      else sortedProfit.getD mid 0
    else 0
  let variance :=
    if 0 < totalTrades then
      profitArray.foldl (fun acc v => acc + (v - avgProfit) ^ 2) (0 : ℚ) / totalTrades
    else 0
  let dailyProfitMap := dailyProfitMapOf validTrades
  let dailyProfits := dailyProfitMap.map Prod.snd
  let averageDailyProfit :=
    if 0 < dailyProfits.length then
      dailyProfits.foldl (fun acc v => acc + v) (0 : ℚ) / dailyProfits.length
    else 0
  let projectedAnnualIncome := averageDailyProfit * 365
  let dailyData := dailyWalk initialBalance 0 initialBalance (dailyBucketsSorted validTrades)
  let monthlyData := monthlyWalk initialBalance 0 initialBalance (monthlyBucketsSorted dailyData)
  { totalTrades := totalTrades
    profitableTrades := profitableTrades
    lossTrades := lossTrades
    breakEvenTrades := breakEvenTrades
    winRate := winRate
    totalProfit := totalProfit
    maxProfit := maxProfit
    minProfit := minProfit
    avgProfit := avgProfit
    medianProfit := medianProfit
    variance := variance
    averageDailyProfit := averageDailyProfit
    projectedAnnualIncome := projectedAnnualIncome
    dailyData := dailyData
    monthlyData := monthlyData
    realizedEquityData := [] }

/-- `computeStats` (lines 309-438): filter to the valid rows and
compute everything from them. -/
def computeStats (trades : List TradeRow) (initialBalance : ℚ) : Stats :=
  computeStatsValid (trades.filter validP) initialBalance

/-- The activity sort (lines 231-233):
`activityData.sort((a, b) => parseDate(a.Date).getTime() - parseDate(b.Date).getTime())`. -/
def sortActivity (rows : List ActivityRow) : List ActivityRow :=
  List.insertionSort (fun a b => nanLeB (toInstant a.date) (toInstant b.date) = true) rows

/-- The initial balance extraction (line 235):
`sortedActivity[0]?.Balance ? Number(sortedActivity[0].Balance) : 0`.
The result is a JS number, possibly NaN (`none`). -/
def initialBalanceOf (rows : List ActivityRow) : Option ℚ :=
  match sortActivity rows with
  | [] => some 0
  | r :: _ => if cellTruthy r.balance then jsToNumber r.balance else some 0

/-- `realizedEquityData` (lines 237-240): the sorted activity rows,
each mapped to its reformatted date and `Number(row["Realized Equity"]) || 0`. -/
def realizedEquityDataOf (rows : List ActivityRow) : List RealizedEquityData :=
  (sortActivity rows).map fun r =>
    ⟨formatDate r.date, match jsToNumber r.realizedEquity with
      | some q => if q = 0 then 0 else q
      | none => 0⟩

/-- `dailyRealizedMap` (lines 247-250): date to last realised equity of
that date, last write winning. -/
def dailyRealizedMapOf (rows : List ActivityRow) : List (String × ℚ) :=
  (realizedEquityDataOf rows).foldl (fun m r => insertPut m r.date r.realizedEquity) []

/-- `sortedDates` (lines 251-253): the map's keys sorted by
`new Date(a).getTime() - new Date(b).getTime()`. -/
def sortedDatesOf (rows : List ActivityRow) : List String :=
  List.insertionSort (fun a b => nanLeB (jsDateKey a) (jsDateKey b) = true)
    ((dailyRealizedMapOf rows).map Prod.fst)

/-- The percent-change loop (lines 255-263 and 280-288) as explicit
state passing: `none` for "at the first entry", `some prev` carrying
the equity of the previous entry. -/
def pctWalk (m : List (String × ℚ)) : Option ℚ → List String → List (String × ℚ)
  | _, [] => []
  | none, d :: t => (d, 0) :: pctWalk m (some ((alookup m d).getD 0)) t
  | some prev, d :: t =>
    let curr := (alookup m d).getD 0
    (d, if prev ≠ 0 then (curr - prev) / prev * 100 else 0) :: pctWalk m (some curr) t

/-- `dailyPercentMap` (lines 254-263). -/
def dailyPercentMapOf (rows : List ActivityRow) : List (String × ℚ) :=
  pctWalk (dailyRealizedMapOf rows) none (sortedDatesOf rows)

/-- The daily patch (lines 265-270): overwrite `dailyPercentChange`
with the equity-derived value where the date has one
(`!== undefined`), leaving everything else alone. -/
def patchDaily (dl : List DailyData) (pm : List (String × ℚ)) : List DailyData :=
  dl.map fun item =>
    match alookup pm item.date with
    | some v => { item with dailyPercentChange := v }
    | none => item

/-- `monthlyRealizedMap` (lines 273-277): month to the realised equity
of the last date of that month in `sortedDates` order. -/
def monthlyRealizedMapOf (rows : List ActivityRow) : List (String × ℚ) :=
  (sortedDatesOf rows).foldl
    (fun m date => insertPut m (monthKey date) ((alookup (dailyRealizedMapOf rows) date).getD 0))
    []

/-- `sortedMonths` (line 278): keys under the default string sort. -/
def sortedMonthsOf (rows : List ActivityRow) : List String :=
  List.insertionSort (fun a b => strLeB a b = true) ((monthlyRealizedMapOf rows).map Prod.fst)

/-- `monthlyPercentMap` (lines 279-288). -/
def monthlyPercentMapOf (rows : List ActivityRow) : List (String × ℚ) :=
  pctWalk (monthlyRealizedMapOf rows) none (sortedMonthsOf rows)

/-- The monthly patch (lines 289-294). -/
def patchMonthly (ml : List MonthlyData) (pm : List (String × ℚ)) : List MonthlyData :=
  ml.map fun item =>
    match alookup pm item.month with
    | some v => { item with monthlyPercentChange := v }
    | none => item

/-! ## Helper lemmas -/

theorem computeStats_def (ts : List TradeRow) (ib : ℚ) :
    computeStats ts ib = computeStatsValid (ts.filter validP) ib := rfl

theorem computeStatsValid_totalTrades (v : List TradeRow) (ib : ℚ) :
    (computeStatsValid v ib).totalTrades = v.length := rfl

theorem computeStatsValid_profitable (v : List TradeRow) (ib : ℚ) :
    (computeStatsValid v ib).profitableTrades
      = ((v.map profitOf).filter (fun p => 0 < p)).length := rfl

theorem computeStatsValid_loss (v : List TradeRow) (ib : ℚ) :
    (computeStatsValid v ib).lossTrades
      = ((v.map profitOf).filter (fun p => p < 0)).length := rfl

theorem computeStatsValid_breakEven (v : List TradeRow) (ib : ℚ) :
    (computeStatsValid v ib).breakEvenTrades
      = ((v.map profitOf).filter (fun p => p = 0)).length := rfl

theorem computeStatsValid_totalProfit (v : List TradeRow) (ib : ℚ) :
    (computeStatsValid v ib).totalProfit
      = (v.map profitOf).foldl (fun acc p => acc + p) (0 : ℚ) := rfl

theorem computeStatsValid_dailyData (v : List TradeRow) (ib : ℚ) :
    (computeStatsValid v ib).dailyData = dailyWalk ib 0 ib (dailyBucketsSorted v) := rfl

theorem computeStatsValid_monthlyData (v : List TradeRow) (ib : ℚ) :
    (computeStatsValid v ib).monthlyData
      = monthlyWalk ib 0 ib (monthlyBucketsSorted (dailyWalk ib 0 ib (dailyBucketsSorted v))) :=
  rfl

/-- Valid profits are real (non-NaN) numbers, so the sign trichotomy
partitions any list of them. -/
theorem length_filter_sign_trichotomy (l : List ℚ) :
    ((l.filter (fun p => 0 < p)).length + (l.filter (fun p => p < 0)).length)
      + (l.filter (fun p => p = 0)).length = l.length := by
  induction l with
  | nil => simp
  | cons a t ih =>
    rcases lt_trichotomy a 0 with h | h | h
    · simp only [List.filter_cons, decide_eq_true_eq, List.length_cons]
      simp [h, not_lt_of_gt h, ne_of_lt h]
      omega
    · simp only [List.filter_cons, decide_eq_true_eq, List.length_cons]
      simp [h]
      omega
    · simp only [List.filter_cons, decide_eq_true_eq, List.length_cons]
      simp [h, not_lt_of_gt h, ne_of_gt h]
      omega

/-! ## Claims -/

/-- C8: for every list of trade rows, the Stats returned by the Trade
Aggregator satisfies
`profitableTrades + lossTrades + breakEvenTrades = totalTrades`, and
`totalTrades` equals the number of input rows whose `Profit(USD)` field
is present (not the empty string) and numeric. -/
theorem c8_trade_count_partition (trades : List TradeRow) (ib : ℚ) :
    (computeStats trades ib).profitableTrades + (computeStats trades ib).lossTrades
        + (computeStats trades ib).breakEvenTrades = (computeStats trades ib).totalTrades ∧
      (computeStats trades ib).totalTrades = trades.countP validP := by
  rw [computeStats_def]
  constructor
  · rw [computeStatsValid_profitable, computeStatsValid_loss, computeStatsValid_breakEven,
      computeStatsValid_totalTrades]
    have h := length_filter_sign_trichotomy ((trades.filter validP).map profitOf)
    simpa using h
  · rw [computeStatsValid_totalTrades, List.countP_eq_length_filter]

/-- C9: appending one row whose `Profit(USD)` field is the empty string
or non-numeric (NaN under `Number`) leaves every field of the computed
Stats unchanged. -/
theorem c9_invalid_row_noop (ts : List TradeRow) (ib : ℚ) (r : TradeRow)
    (h : r.profit = Cell.str "" ∨ jsToNumber r.profit = none) :
    computeStats (ts ++ [r]) ib = computeStats ts ib := by
  have hv : validP r = false := by
    rcases h with h | h <;> simp [validP, h]
  rw [computeStats_def, computeStats_def, List.filter_append]
  simp [List.filter_cons, hv]

theorem c9_witness :
    ((Cell.str "" = Cell.str "" ∨ jsToNumber (Cell.str "") = none) ∧
      computeStats
          ([TradeRow.mk (Cell.num 5) "01/01/2024 10:00:00"]
            ++ [TradeRow.mk (Cell.str "") "02/01/2024 11:00:00"]) 100
        = computeStats [TradeRow.mk (Cell.num 5) "01/01/2024 10:00:00"] 100) :=
  ⟨Or.inl rfl, c9_invalid_row_noop [TradeRow.mk (Cell.num 5) "01/01/2024 10:00:00"] 100
    (TradeRow.mk (Cell.str "") "02/01/2024 11:00:00") (Or.inl rfl)⟩

/-- C7: the Reconciler patch step overwrites the percent-change field of
exactly those daily buckets whose date has an entry in the percent map
(and of those monthly buckets whose month has one), leaves the
percent-change of unmatched buckets as produced by the Aggregator, and
preserves every other field as well as the number and order of buckets. -/
theorem c7_patch_frame (dl : List DailyData) (ml : List MonthlyData)
    (pm qm : List (String × ℚ)) :
    (patchDaily dl pm).length = dl.length ∧
      (patchDaily dl pm).map (fun d => (d.date, d.profit, d.cumulativeProfit, d.balance))
        = dl.map (fun d => (d.date, d.profit, d.cumulativeProfit, d.balance)) ∧
      (patchDaily dl pm).map DailyData.dailyPercentChange
        = dl.map (fun d => (alookup pm d.date).getD d.dailyPercentChange) ∧
      (patchMonthly ml qm).length = ml.length ∧
      (patchMonthly ml qm).map (fun x => (x.month, x.profit, x.cumulativeProfit, x.balance))
        = ml.map (fun x => (x.month, x.profit, x.cumulativeProfit, x.balance)) ∧
      (patchMonthly ml qm).map MonthlyData.monthlyPercentChange
        = ml.map (fun x => (alookup qm x.month).getD x.monthlyPercentChange) := by
  refine ⟨by simp [patchDaily], ?_, ?_, by simp [patchMonthly], ?_, ?_⟩
  · simp only [patchDaily, List.map_map]
    refine List.map_congr_left fun x hx => ?_
    rcases h : alookup pm x.date with _ | v <;> simp [Function.comp, h]
  · simp only [patchDaily, List.map_map]
    refine List.map_congr_left fun x hx => ?_
    rcases h : alookup pm x.date with _ | v <;> simp [Function.comp, h]
  · simp only [patchMonthly, List.map_map]
    refine List.map_congr_left fun x hx => ?_
    rcases h : alookup qm x.month with _ | v <;> simp [Function.comp, h]
  · simp only [patchMonthly, List.map_map]
    refine List.map_congr_left fun x hx => ?_
    rcases h : alookup qm x.month with _ | v <;> simp [Function.comp, h]

/-- C3 counterexample: on empty input the code yields
`maxProfit = -Infinity` and `minProfit = Infinity` (the JS
`Math.max()`/`Math.min()` of an empty spread), not `0` as claimed. -/
theorem c3_counterexample :
    ¬ ((computeStats [] 0).maxProfit = XReal.fin 0
        ∧ (computeStats [] 0).minProfit = XReal.fin 0) := by
  decide

/-- C3 amended: on empty input every count and sum is zero, the three
series are empty and no division is attempted (all divisions are
guarded, and in this model division is total anyway), but
`maxProfit = -Infinity` and `minProfit = Infinity` rather than zero. -/
theorem c3_empty_input :
    computeStats [] 0
        = Stats.mk 0 0 0 0 0 0 XReal.negInf XReal.posInf 0 0 0 0 0 [] [] [] ∧
      initialBalanceOf [] = some 0 ∧ realizedEquityDataOf [] = [] ∧
      dailyRealizedMapOf [] = [] ∧ dailyPercentMapOf [] = [] ∧
      monthlyPercentMapOf [] = [] := by
  with_unfolding_all decide

/-- The spec's concrete scenario C equity snapshots. -/
def scenarioCRows : List ActivityRow :=
  [ActivityRow.mk "01/01/2024 00:00:00" (Cell.str "1000") (Cell.str "1000"),
   ActivityRow.mk "02/01/2024 00:00:00" (Cell.str "1000") (Cell.str "1100")]

theorem mk_eq_empty_iff (l : List Char) : String.mk l = "" ↔ l = [] := by
  constructor
  · intro h
    have h2 : l = "".data := congrArg String.data h
    rw [show ("".data : List Char) = [] from rfl] at h2
    exact h2
  · rintro rfl; rfl

/-- C4 counterexample: a chronologically first snapshot whose Balance
is the truthy non-numeric string "abc" yields `Number("abc") = NaN` as
the initial balance, not `0` as claimed. -/
theorem c4_counterexample :
    jsToNumber (Cell.str "abc") = none ∧
      initialBalanceOf [ActivityRow.mk "01/01/2024 00:00:00" (Cell.str "abc")
          (Cell.str "1000")] ≠ some 0 := by
  decide

/-- C4 amended: the initial balance is `0` when the snapshot list is
empty or the first snapshot (under the `toInstant` sort) has a falsy
Balance (empty string or the number 0); when that Balance is truthy it
is `Number(Balance)` — the numeric value if the field is numeric, and
NaN (not 0) if it is a truthy non-numeric string. -/
theorem c4_initial_balance (rows : List ActivityRow) :
    (rows = [] → initialBalanceOf rows = some 0) ∧
      ∀ r rest, sortActivity rows = r :: rest →
        initialBalanceOf rows = if cellTruthy r.balance then jsToNumber r.balance else some 0 := by
  constructor
  · rintro rfl; rfl
  · intro r rest h
    simp only [initialBalanceOf, h]

theorem c4_witness :
    sortActivity scenarioCRows
        = ActivityRow.mk "01/01/2024 00:00:00" (Cell.str "1000") (Cell.str "1000")
          :: [ActivityRow.mk "02/01/2024 00:00:00" (Cell.str "1000") (Cell.str "1100")] ∧
      initialBalanceOf scenarioCRows
        = if cellTruthy (Cell.str "1000") then jsToNumber (Cell.str "1000") else some 0 :=
  ⟨by decide, (c4_initial_balance scenarioCRows).2
    (ActivityRow.mk "01/01/2024 00:00:00" (Cell.str "1000") (Cell.str "1000"))
    [ActivityRow.mk "02/01/2024 00:00:00" (Cell.str "1000") (Cell.str "1100")]
    (by decide)⟩

/-- C5 counterexample: the Close Date "2024-01-01" does not match the
DD/MM/YYYY shape (it does not split on `/` into three parts), yet the
trade is NOT excluded: it lands in a daily bucket keyed by the raw
first part and in the corresponding monthly bucket. -/
theorem c5_counterexample :
    (splitChar '/' ((splitChar ' ' "2024-01-01".data).headD [])).length ≠ 3 ∧
      validP (TradeRow.mk (Cell.str "10") "2024-01-01") = true ∧
      (computeStats [TradeRow.mk (Cell.str "10") "2024-01-01"] 0).dailyData
        = [DailyData.mk "2024-01-01" 10 10 10 0] ∧
      (computeStats [TradeRow.mk (Cell.str "10") "2024-01-01"] 0).monthlyData
        = [MonthlyData.mk "2024-01" 10 10 10 0] := by
  with_unfolding_all decide

/-- C5 amended: a valid trade row is excluded from daily (and hence
monthly) bucketing exactly when its computed date key is empty, i.e.
when the Close Date string is falsy or the portion before the first
space is empty; a row whose date merely fails the DD/MM/YYYY shape but
has a nonempty first part is bucketed under that raw first part. -/
theorem c5_empty_key_exclusion :
    (∀ (ts : List TradeRow) (ib : ℚ) (r : TradeRow), validP r = true →
        tradeDateStr r.closeDate = "" →
        (computeStats (ts ++ [r]) ib).dailyData = (computeStats ts ib).dailyData ∧
          (computeStats (ts ++ [r]) ib).monthlyData = (computeStats ts ib).monthlyData) ∧
      ∀ s : String, tradeDateStr s = "" ↔ s = "" ∨ (splitChar ' ' s.data).headD [] = [] := by
  constructor
  · intro ts ib r hv hk
    have hf : (ts ++ [r]).filter validP = ts.filter validP ++ [r] := by
      simp [List.filter_append, List.filter_cons, hv]
    have hm : dailyProfitMapOf (ts.filter validP ++ [r]) = dailyProfitMapOf (ts.filter validP) := by
      simp [dailyProfitMapOf, List.foldl_append, hk]
    constructor
    · rw [computeStats_def, computeStats_def, computeStatsValid_dailyData,
        computeStatsValid_dailyData, hf, dailyBucketsSorted, dailyBucketsSorted, hm]
    · rw [computeStats_def, computeStats_def, computeStatsValid_monthlyData,
        computeStatsValid_monthlyData, hf, dailyBucketsSorted, dailyBucketsSorted, hm]
  · intro s
    by_cases hs : s = ""
    · subst hs; simp [tradeDateStr]
    · rw [tradeDateStr, if_pos hs]
      dsimp only
      split
      next d m y heq =>
        simp only [mk_eq_empty_iff]
        constructor
        · intro h0; simp at h0
        · rintro (h0 | h0)
          · exact absurd h0 hs
          · rw [h0] at heq; simp [splitChar] at heq
      next hne =>
        simp [mk_eq_empty_iff, hs]

theorem c5_witness :
    (validP (TradeRow.mk (Cell.str "7") "") = true ∧ tradeDateStr "" = "") ∧
      (computeStats ([TradeRow.mk (Cell.num 5) "01/01/2024 10:00:00"]
            ++ [TradeRow.mk (Cell.str "7") ""]) 3).dailyData
          = (computeStats [TradeRow.mk (Cell.num 5) "01/01/2024 10:00:00"] 3).dailyData ∧
        (computeStats ([TradeRow.mk (Cell.num 5) "01/01/2024 10:00:00"]
            ++ [TradeRow.mk (Cell.str "7") ""]) 3).monthlyData
          = (computeStats [TradeRow.mk (Cell.num 5) "01/01/2024 10:00:00"] 3).monthlyData :=
  ⟨⟨by decide, rfl⟩,
    c5_empty_key_exclusion.1 [TradeRow.mk (Cell.num 5) "01/01/2024 10:00:00"] 3
      (TradeRow.mk (Cell.str "7") "") (by decide) rfl⟩

theorem foldl_add_eq_add_sum (l : List ℚ) : ∀ a : ℚ, l.foldl (fun acc p => acc + p) a = a + l.sum := by
  induction l with
  | nil => intro a; simp
  | cons x t ih =>
    intro a
    rw [List.foldl_cons, ih, List.sum_cons]
    ring

theorem dailyWalk_map_profit (ib : ℚ) :
    ∀ (l : List DailyData) (c b : ℚ),
      (dailyWalk ib c b l).map DailyData.profit = l.map DailyData.profit := by
  intro l
  induction l with
  | nil => intro c b; rfl
  | cons d t ih => intro c b; simp [dailyWalk, ih]

theorem monthlyWalk_map_profit (ib : ℚ) :
    ∀ (l : List (String × ℚ)) (c b : ℚ),
      (monthlyWalk ib c b l).map MonthlyData.profit = l.map Prod.snd := by
  intro l
  induction l with
  | nil => intro c b; rfl
  | cons p t ih => rcases p with ⟨mo, q⟩; intro c b; simp [monthlyWalk, ih]

theorem sum_snd_insertAdd (k : String) (v : ℚ) :
    ∀ m : List (String × ℚ),
      ((insertAdd m k v).map Prod.snd).sum = (m.map Prod.snd).sum + v := by
  intro m
  induction m with
  | nil => simp [insertAdd]
  | cons p t ih =>
    rcases p with ⟨k0, v0⟩
    by_cases h : k0 = k <;> simp [insertAdd, h, ih] <;> ring

theorem sum_snd_foldl_daily :
    ∀ (v : List TradeRow) (m : List (String × ℚ)),
      (∀ t ∈ v, tradeDateStr t.closeDate ≠ "") →
      (((v.foldl (fun m t =>
            if tradeDateStr t.closeDate = "" then m
            else insertAdd m (tradeDateStr t.closeDate) (profitOf t)) m)).map Prod.snd).sum
        = (m.map Prod.snd).sum + (v.map profitOf).sum := by
  intro v
  induction v with
  | nil => intro m _; simp
  | cons t ts ih =>
    intro m h
    rw [List.foldl_cons, if_neg (h t (by simp))]
    rw [ih _ (fun x hx => h x (List.mem_cons_of_mem t hx))]
    rw [sum_snd_insertAdd, List.map_cons, List.sum_cons]
    ring

theorem sum_snd_foldl_monthly :
    ∀ (dl : List DailyData) (m : List (String × ℚ)),
      ((dl.foldl (fun m d => insertAdd m (monthKey d.date) d.profit) m).map Prod.snd).sum
        = (m.map Prod.snd).sum + (dl.map DailyData.profit).sum := by
  intro dl
  induction dl with
  | nil => intro m; simp
  | cons d t ih =>
    intro m
    rw [List.foldl_cons, ih, sum_snd_insertAdd, List.map_cons, List.sum_cons]
    ring

theorem sum_profit_dailyBucketsSorted (v : List TradeRow) :
    ((dailyBucketsSorted v).map DailyData.profit).sum
      = ((dailyProfitMapOf v).map Prod.snd).sum := by
  unfold dailyBucketsSorted
  rw [((List.perm_insertionSort _ _).map DailyData.profit).sum_eq]
  rw [List.map_map]
  rfl

theorem sum_snd_monthlyBuckets (dl : List DailyData) :
    ((monthlyBucketsSorted dl).map Prod.snd).sum = (dl.map DailyData.profit).sum := by
  unfold monthlyBucketsSorted
  rw [((List.perm_insertionSort _ _).map Prod.snd).sum_eq]
  simpa using sum_snd_foldl_monthly dl []

/-- C2 counterexample: a single valid trade whose Close Date is the
empty string counts in `totalProfit` but lands in no daily bucket, so
the daily profits do not sum to `totalProfit`. -/
theorem c2_counterexample :
    ((computeStats [TradeRow.mk (Cell.str "10") ""] 0).dailyData.map DailyData.profit).sum
      ≠ (computeStats [TradeRow.mk (Cell.str "10") ""] 0).totalProfit := by
  with_unfolding_all decide

/-- C2 amended: the monthly bucket profits always sum to the daily
bucket profits; the daily bucket profits sum to `totalProfit` provided
every valid trade has a nonempty date key (a falsy Close Date or an
empty first part makes the trade count in `totalProfit` but appear in
no bucket). -/
theorem c2_bucket_sums (ts : List TradeRow) (ib : ℚ) :
    ((computeStats ts ib).monthlyData.map MonthlyData.profit).sum
        = ((computeStats ts ib).dailyData.map DailyData.profit).sum ∧
      ((∀ t ∈ ts.filter validP, tradeDateStr t.closeDate ≠ "") →
        ((computeStats ts ib).dailyData.map DailyData.profit).sum
          = (computeStats ts ib).totalProfit) := by
  constructor
  · rw [computeStats_def, computeStatsValid_monthlyData, computeStatsValid_dailyData,
      monthlyWalk_map_profit, sum_snd_monthlyBuckets]
  · intro h
    rw [computeStats_def, computeStatsValid_dailyData, computeStatsValid_totalProfit,
      dailyWalk_map_profit, sum_profit_dailyBucketsSorted, foldl_add_eq_add_sum]
    have h2 := sum_snd_foldl_daily (ts.filter validP) [] h
    rw [dailyProfitMapOf, h2]
    simp

theorem c2_witness :
    (∀ t ∈ ([TradeRow.mk (Cell.num 100) "01/01/2024 10:00:00",
        TradeRow.mk (Cell.num (-50)) "01/01/2024 12:00:00",
        TradeRow.mk (Cell.num 20) "02/01/2024 09:00:00"].filter validP),
      tradeDateStr t.closeDate ≠ "") ∧
      ((computeStats [TradeRow.mk (Cell.num 100) "01/01/2024 10:00:00",
          TradeRow.mk (Cell.num (-50)) "01/01/2024 12:00:00",
          TradeRow.mk (Cell.num 20) "02/01/2024 09:00:00"] 1000).dailyData.map
            DailyData.profit).sum
        = (computeStats [TradeRow.mk (Cell.num 100) "01/01/2024 10:00:00",
            TradeRow.mk (Cell.num (-50)) "01/01/2024 12:00:00",
            TradeRow.mk (Cell.num 20) "02/01/2024 09:00:00"] 1000).totalProfit :=
  ⟨by decide,
    (c2_bucket_sums [TradeRow.mk (Cell.num 100) "01/01/2024 10:00:00",
        TradeRow.mk (Cell.num (-50)) "01/01/2024 12:00:00",
        TradeRow.mk (Cell.num 20) "02/01/2024 09:00:00"] 1000).2 (by decide)⟩

/-- C10: a trade row whose `Profit(USD)` field is a nonempty
whitespace-only string passes the validity filter (which rejects only
the exact empty string and strings whose `Number` conversion is NaN)
and is counted as a valid break-even trade with profit `0`, since
`Number` of a whitespace-only string is `0`. -/
theorem c10_whitespace_profit (s cd : String) (ts : List TradeRow) (ib : ℚ)
    (hne : s ≠ "") (hws : ∀ c ∈ s.data, isJsWhitespace c = true) :
    validP (TradeRow.mk (Cell.str s) cd) = true ∧
      jsToNumber (Cell.str s) = some 0 ∧
      (computeStats (ts ++ [TradeRow.mk (Cell.str s) cd]) ib).totalTrades
        = (computeStats ts ib).totalTrades + 1 ∧
      (computeStats (ts ++ [TradeRow.mk (Cell.str s) cd]) ib).breakEvenTrades
        = (computeStats ts ib).breakEvenTrades + 1 := by
  have hn : jsToNumber (Cell.str s) = some 0 := by
    show jsStrToNumber s = some 0
    unfold jsStrToNumber
    have h1 : s.data.dropWhile isJsWhitespace = [] := List.dropWhile_eq_nil_iff.mpr hws
    rw [h1]
    rfl
  have hv : validP (TradeRow.mk (Cell.str s) cd) = true := by
    simp [validP, hn, hne]
  refine ⟨hv, hn, ?_, ?_⟩
  · rw [computeStats_def, computeStats_def, computeStatsValid_totalTrades,
      computeStatsValid_totalTrades]
    simp [List.filter_append, List.filter_cons, hv]
  · rw [computeStats_def, computeStats_def, computeStatsValid_breakEven,
      computeStatsValid_breakEven]
    simp [List.filter_append, List.filter_cons, hv, profitOf, hn]

theorem c10_witness :
    (" " ≠ "" ∧ ∀ c ∈ (" " : String).data, isJsWhitespace c = true) ∧
      validP (TradeRow.mk (Cell.str " ") "") = true ∧
      jsToNumber (Cell.str " ") = some 0 ∧
      (computeStats ([] ++ [TradeRow.mk (Cell.str " ") ""]) 0).totalTrades
        = (computeStats [] 0).totalTrades + 1 ∧
      (computeStats ([] ++ [TradeRow.mk (Cell.str " ") ""]) 0).breakEvenTrades
        = (computeStats [] 0).breakEvenTrades + 1 :=
  ⟨⟨by decide, by decide⟩, c10_whitespace_profit " " "" [] 0 (by decide) (by decide)⟩

/-- Closed form of the accumulation walk started from cumulative
profit `c` (proof infrastructure generalising `specDailyData`). -/
def dailyClosedFrom (ib c : ℚ) (l : List DailyData) : List DailyData :=
  (List.range l.length).map fun i =>
    let profits := l.map DailyData.profit
    let prevBal := ib + (c + (profits.take i).sum)
    { date := (l.getD i default).date
      profit := (l.getD i default).profit
      cumulativeProfit := c + (profits.take (i + 1)).sum
      balance := ib + (c + (profits.take (i + 1)).sum)
      dailyPercentChange :=
        if prevBal = 0 then 0 else (l.getD i default).profit / prevBal * 100 }

/-- The daily series exactly as the spec words it, over an arbitrary
date-sorted bucket list: each bucket's cumulative profit is the prefix
sum of bucket profits in date order, its balance is
`initialBalance + cumulativeProfit`, and its percent change is
`profit / previousBalance * 100` (`0` when the previous balance is
zero), where the previous balance starts at `initialBalance` and
becomes the current bucket's balance after each step (so it equals
`initialBalance` plus the prefix sum before the bucket). -/
def specDailyData (ib : ℚ) (l : List DailyData) : List DailyData :=
  (List.range l.length).map fun i =>
    let profits := l.map DailyData.profit
    let cum := (profits.take (i + 1)).sum
    let prevBal := ib + (profits.take i).sum
    { date := (l.getD i default).date
      profit := (l.getD i default).profit
      cumulativeProfit := cum
      balance := ib + cum
      dailyPercentChange :=
        if prevBal = 0 then 0 else (l.getD i default).profit / prevBal * 100 }

theorem dailyWalk_closed (ib : ℚ) :
    ∀ (l : List DailyData) (c b : ℚ), b = ib + c →
      dailyWalk ib c b l = dailyClosedFrom ib c l := by
  intro l
  induction l with
  | nil => intro c b hb; rfl
  | cons d t ih =>
    intro c b hb
    subst hb
    simp only [dailyWalk]
    rw [ih (c + d.profit) _ rfl]
    unfold dailyClosedFrom
    simp only [List.length_cons, List.range_succ_eq_map, List.map_cons, List.map_map]
    congr 1
    · by_cases hx : ib + c = 0 <;>
        simp [hx, List.take_succ_cons, List.take_zero, List.sum_cons]
    · refine List.map_congr_left fun i hi => ?_
      simp [Function.comp, List.take_succ_cons, List.sum_cons, List.getD_cons_succ, add_assoc]

theorem specDailyData_eq_closed (ib : ℚ) (l : List DailyData) :
    specDailyData ib l = dailyClosedFrom ib 0 l := by
  unfold specDailyData dailyClosedFrom
  refine List.map_congr_left fun i hi => ?_
  simp

/-- The spec's concrete scenario A trades. -/
def scenarioATrades : List TradeRow :=
  [TradeRow.mk (Cell.num 100) "01/01/2024 10:00:00",
   TradeRow.mk (Cell.num (-50)) "01/01/2024 12:00:00",
   TradeRow.mk (Cell.num 20) "02/01/2024 09:00:00"]

set_option maxRecDepth 4000 in
/-- C1: for every list of trade rows and every initial balance, the
daily series equals the spec's description applied to the date-sorted
bucket list of valid trades (prefix-sum cumulative profit, balance
`initialBalance + cumulativeProfit`, percent change
`profit / previousBalance * 100` guarded at zero, previous balance
starting at `initialBalance` and updated to the current balance);
scenario A with initial balance 1000 yields exactly the two buckets the
spec states (with `pct` values `5` and `40/21 ≈ 1.905`). -/
theorem c1_daily_series :
    (∀ (ts : List TradeRow) (ib : ℚ),
        (computeStats ts ib).dailyData = specDailyData ib (dailyBucketsSorted (ts.filter validP))) ∧
      (computeStats scenarioATrades 1000).totalTrades = 3 ∧
      (computeStats scenarioATrades 1000).totalProfit = 70 ∧
      (computeStats scenarioATrades 1000).dailyData
        = [DailyData.mk "2024-01-01" 50 50 1050 5,
           DailyData.mk "2024-01-02" 20 70 1070 (40 / 21)] := by
  refine ⟨?_, by decide, by with_unfolding_all decide, by with_unfolding_all decide⟩
  intro ts ib
  rw [computeStats_def, computeStatsValid_dailyData, specDailyData_eq_closed]
  exact dailyWalk_closed ib _ 0 ib (by ring)

/-- Spec wording, subsequent days: each day's change is
`(currentEquity - previousEquity) / previousEquity * 100` with the
divide-by-zero guard, where `previousEquity` is the equity of the
previous day in the sorted day list. -/
def specPercentStep (eqv : String → ℚ) : String → List String → List (String × ℚ)
  | _, [] => []
  | prev, d :: rest =>
    (d, if eqv prev = 0 then 0 else (eqv d - eqv prev) / eqv prev * 100)
      :: specPercentStep eqv d rest

/-- The day-over-day percent-change series as the spec words it: walk
the distinct days in sorted order, the first day's change is `0`, and
every later day's change compares its equity with the previous day's. -/
def specPercentSeries (eqv : String → ℚ) : List String → List (String × ℚ)
  | [] => []
  | d :: rest => (d, 0) :: specPercentStep eqv d rest

theorem pctWalk_step (m : List (String × ℚ)) :
    ∀ (days : List String) (prev : String),
      pctWalk m (some ((alookup m prev).getD 0)) days
        = specPercentStep (fun d => (alookup m d).getD 0) prev days := by
  intro days
  induction days with
  | nil => intro prev; rfl
  | cons d t ih =>
    intro prev
    rw [pctWalk, specPercentStep, ih d]
    by_cases h : (alookup m prev).getD 0 = 0 <;> simp [h]

theorem pctWalk_none_spec (m : List (String × ℚ)) (days : List String) :
    pctWalk m none days = specPercentSeries (fun d => (alookup m d).getD 0) days := by
  cases days with
  | nil => rfl
  | cons d t => rw [pctWalk, specPercentSeries, pctWalk_step m t d]

theorem mem_keys_insertPut (k : String) (v : ℚ) :
    ∀ (m : List (String × ℚ)) (x : String),
      x ∈ (insertPut m k v).map Prod.fst ↔ x = k ∨ x ∈ m.map Prod.fst := by
  intro m
  induction m with
  | nil => intro x; simp [insertPut]
  | cons p t ih =>
    rcases p with ⟨k0, v0⟩
    intro x
    by_cases h : k0 = k
    · subst h; simp [insertPut]
    · simp [insertPut, h, ih]
      tauto

theorem nodup_keys_insertPut (k : String) (v : ℚ) :
    ∀ m : List (String × ℚ),
      ((m.map Prod.fst).Nodup) → ((insertPut m k v).map Prod.fst).Nodup := by
  intro m
  induction m with
  | nil => intro _; simp [insertPut]
  | cons p t ih =>
    rcases p with ⟨k0, v0⟩
    intro h
    rw [List.map_cons, List.nodup_cons] at h
    by_cases hk : k0 = k
    · subst hk
      simpa [insertPut] using h
    · rw [insertPut, if_neg hk, List.map_cons, List.nodup_cons]
      refine ⟨fun hc => ?_, ih h.2⟩
      rcases (mem_keys_insertPut k v t k0).mp hc with h2 | h2
      · exact hk h2
      · exact h.1 h2

theorem nodup_keys_foldl_insertPut :
    ∀ (rs : List RealizedEquityData) (m : List (String × ℚ)),
      (m.map Prod.fst).Nodup →
      ((rs.foldl (fun m r => insertPut m r.date r.realizedEquity) m).map Prod.fst).Nodup := by
  intro rs
  induction rs with
  | nil => intro m h; simpa using h
  | cons r t ih => intro m h; exact ih _ (nodup_keys_insertPut r.date r.realizedEquity m h)

theorem keys_foldl_insertPut_subset :
    ∀ (rs : List RealizedEquityData) (m : List (String × ℚ)) (x : String),
      x ∈ ((rs.foldl (fun m r => insertPut m r.date r.realizedEquity) m).map Prod.fst) →
      x ∈ m.map Prod.fst ∨ x ∈ rs.map RealizedEquityData.date := by
  intro rs
  induction rs with
  | nil => intro m x h; exact Or.inl h
  | cons r t ih =>
    intro m x h
    rcases ih _ x h with h2 | h2
    · rcases (mem_keys_insertPut r.date r.realizedEquity m x).mp h2 with h3 | h3
      · right; simp [h3]
      · left; exact h3
    · right; simp [h2]

theorem pairwise_orderedInsert_of (r : α → α → Prop) [DecidableRel r] (P : α → Prop)
    (tot : ∀ x y, P x → P y → r x y ∨ r y x)
    (tr : ∀ x y z, P x → P y → P z → r x y → r y z → r x z) :
    ∀ (l : List α) (a : α), P a → (∀ x ∈ l, P x) → l.Pairwise r →
      (List.orderedInsert r a l).Pairwise r := by
  intro l
  induction l with
  | nil => intro a _ _ _; simp
  | cons b t ih =>
    intro a ha hl hp
    rw [List.orderedInsert]
    rcases List.pairwise_cons.mp hp with ⟨hbt, hpt⟩
    by_cases hab : r a b
    · rw [if_pos hab]
      refine List.pairwise_cons.mpr ⟨fun z hz => ?_, hp⟩
      rcases List.mem_cons.mp hz with rfl | hzt
      · exact hab
      · exact tr a b z ha (hl b (by simp)) (hl z (by simp [hzt])) hab (hbt z hzt)
    · rw [if_neg hab]
      have hba : r b a := (tot a b ha (hl b (by simp))).resolve_left hab
      refine List.pairwise_cons.mpr ⟨fun z hz => ?_, ?_⟩
      · rcases (List.mem_orderedInsert r).mp hz with rfl | hzt
        · exact hba
        · exact hbt z hzt
      · exact ih a ha (fun x hx => hl x (by simp [hx])) hpt

theorem pairwise_insertionSort_of (r : α → α → Prop) [DecidableRel r] (P : α → Prop)
    (tot : ∀ x y, P x → P y → r x y ∨ r y x)
    (tr : ∀ x y z, P x → P y → P z → r x y → r y z → r x z) :
    ∀ l : List α, (∀ x ∈ l, P x) → (List.insertionSort r l).Pairwise r := by
  intro l
  induction l with
  | nil => intro _; simp
  | cons a t ih =>
    intro h
    rw [List.insertionSort]
    refine pairwise_orderedInsert_of r P tot tr _ a (h a (by simp)) ?_
      (ih fun x hx => h x (by simp [hx]))
    intro x hx
    exact h x (by simp [(List.perm_insertionSort r t).mem_iff.mp hx])

/-- C6: the day-over-day percent-change series is computed over the
distinct calendar days (the keys of the daily realised-equity map are
duplicate-free) sorted ascending by date (pairwise, given that every
snapshot date parses), with the first day's change `0` and every later
day's change `(currentEquity - previousEquity) / previousEquity * 100`
guarded to `0` when the previous equity is `0`; scenario C's two
snapshots yield a change of `10` for `2024-01-02`. -/
theorem c6_equity_percent_series :
    (∀ rows : List ActivityRow,
        dailyPercentMapOf rows
          = specPercentSeries (fun d => (alookup (dailyRealizedMapOf rows) d).getD 0)
              (sortedDatesOf rows)) ∧
      (∀ rows : List ActivityRow, (sortedDatesOf rows).Nodup) ∧
      (∀ rows : List ActivityRow,
        (∀ a ∈ rows, (jsDateKey (formatDate a.date)).isSome = true) →
        (sortedDatesOf rows).Pairwise
          (fun a b => nanLeB (jsDateKey a) (jsDateKey b) = true)) ∧
      dailyPercentMapOf scenarioCRows = [("2024-01-01", 0), ("2024-01-02", 10)] := by
  refine ⟨?_, ?_, ?_, by with_unfolding_all decide⟩
  · intro rows
    exact pctWalk_none_spec (dailyRealizedMapOf rows) (sortedDatesOf rows)
  · intro rows
    have h := nodup_keys_foldl_insertPut (realizedEquityDataOf rows) [] (by simp)
    exact (List.perm_insertionSort _ _).nodup_iff.mpr (by simpa [dailyRealizedMapOf] using h)
  · intro rows hp
    refine pairwise_insertionSort_of _ (fun d => (jsDateKey d).isSome = true) ?_ ?_ _ ?_
    · intro x y hx hy
      rcases Option.isSome_iff_exists.mp hx with ⟨kx, hkx⟩
      rcases Option.isSome_iff_exists.mp hy with ⟨ky, hky⟩
      rcases Nat.le_total kx ky with h | h <;> simp [nanLeB, hkx, hky, h]
    · intro x y z hx hy hz h1 h2
      rcases Option.isSome_iff_exists.mp hx with ⟨kx, hkx⟩
      rcases Option.isSome_iff_exists.mp hy with ⟨ky, hky⟩
      rcases Option.isSome_iff_exists.mp hz with ⟨kz, hkz⟩
      rw [hkx, hky] at h1
      rw [hky, hkz] at h2
      rw [hkx, hkz]
      simp only [nanLeB, decide_eq_true_eq] at h1 h2 ⊢
      exact le_trans h1 h2
    · intro x hx
      rcases keys_foldl_insertPut_subset (realizedEquityDataOf rows) [] x
          (by simpa [dailyRealizedMapOf] using hx) with h | h
      · simp at h
      · rcases List.mem_map.mp h with ⟨r, hr, rfl⟩
        rcases List.mem_map.mp
            (by simpa [realizedEquityDataOf] using hr :
              r ∈ (sortActivity rows).map
                (fun a => RealizedEquityData.mk (formatDate a.date)
                  (match jsToNumber a.realizedEquity with
                    | some q => if q = 0 then 0 else q
                    | none => 0))) with ⟨a, ha, rfl⟩
        exact hp a ((List.perm_insertionSort _ _).mem_iff.mp ha)

theorem c6_witness :
    (∀ a ∈ scenarioCRows, (jsDateKey (formatDate a.date)).isSome = true) ∧
      (sortedDatesOf scenarioCRows).Pairwise
        (fun a b => nanLeB (jsDateKey a) (jsDateKey b) = true) :=
  ⟨by decide, c6_equity_percent_series.2.2.1 scenarioCRows (by decide)⟩

/-- Sanity evaluations of the `Number(string)` model. -/
theorem jsNumber_sanity :
    jsStrToNumber " " = some 0 ∧ jsStrToNumber "" = some 0 ∧
      jsStrToNumber "abc" = none ∧ jsStrToNumber "-50" = some (-50) := by
  refine ⟨by decide, by decide, by decide, by with_unfolding_all decide⟩

/-- Sanity evaluations of the date model. -/
theorem dates_sanity :
    formatDate "01/01/2024 10:00:00" = "2024-01-01" ∧
      formatDate "2024-01-01" = "2024-01-01" ∧
      jsDateKey "2024-01-02" = some 20240102 ∧
      toInstant "02/01/2024 09:30:05" = some ((2024010209 * 100 + 30) * 100 + 5) := by
  refine ⟨by decide, by decide, by decide, by decide⟩
